import Mathlib

/-!
Verification development for the jest-scaffold test generator
(src/scaffold-tests.js).  The pipeline parses a React component file,
classifies each declared prop into a representative default value, and
emits two text artifacts: a fixture module (test cases) and a snapshot
test module.  The definitions below are a shallow embedding of the
JavaScript source; JavaScript values that can be strings, booleans,
numbers or null are modelled by `JSVal`, and JavaScript truthiness and
string coercion are modelled explicitly.
-/

/-- Model of the JavaScript values appearing in the classification
table of `getPropDefaults` (strings, booleans, numbers and null). -/
inductive JSVal where
  | str (s : String)
  | bool (b : Bool)
  | num (n : Int)
  | null
deriving DecidableEq, Repr

/-- JavaScript truthiness for the modelled values: the empty string,
`false`, `0` and `null` are falsy, everything else is truthy. -/
def jsTruthy : JSVal → Bool
  | JSVal.str s => !(s == "")
  | JSVal.bool b => b
  | JSVal.num n => !(n == 0)
  | JSVal.null => false

/-- JavaScript string coercion (template-literal interpolation) of the
modelled values. -/
def jsToString : JSVal → String
  | JSVal.str s => s
  | JSVal.bool b => if b then "true" else "false"
  | JSVal.num n => toString n
  | JSVal.null => "null"

/-- A single-quote character as a string (used in the emitted source
text). -/
def sQuote : String := "\x27"

/-- The `propTypes` classification table of `getPropDefaults`
(scaffold-tests.js lines 100-112), in source order.  The value for
`any`, `string` and `union` is the two-character literal consisting of
two single quotes. -/
def propTypesTable : List (String × JSVal) :=
  [("any", JSVal.str "\x27\x27"),
   ("boolean", JSVal.bool true),
   ("bool", JSVal.bool true),
   ("Function", JSVal.str "safeSpy()"),
   ("func", JSVal.str "safeSpy()"),
   ("immutable.list", JSVal.str "Immutable.List()"),
   ("immutable.map", JSVal.str "Immutable.Map()"),
   ("number", JSVal.num 0),
   ("string", JSVal.str "\x27\x27"),
   ("union", JSVal.str "\x27\x27"),
   ("unknown", JSVal.str "Immutable.fromJS()")]

/-- The lookup `propTypes[defaultValue] || null` (line 142): a missing
key gives `undefined`, and `x || null` keeps `x` only when it is
truthy; in particular a falsy mapped value is replaced by `null`. -/
def classifyLookup (t : String) : JSVal :=
  match propTypesTable.lookup t with
  | some v => if jsTruthy v then v else JSVal.null
  | none => JSVal.null

/-- A react-docgen flow-type descriptor: its `name`, and for unions the
names of its element types (the source reads `elements[0].name`; on an
empty union the source would throw inside the promise executor, which
no claim exercises, so the model reads the head with a default). -/
structure FlowType where
  name : String
  elements : List String
deriving DecidableEq, Repr

/-- A react-docgen prop descriptor as consumed by `getPropDefaults`:
an optional flow type, the optional free-form `type.raw` text of a
runtime PropTypes validator, and the `required` field (`none` models
the JavaScript `undefined`). -/
structure PropValue where
  flowType : Option FlowType
  typeRaw : Option String
  required : Option Bool
deriving DecidableEq, Repr

/-- The record pushed onto `data.classifiedProps` for each prop
(line 143).  `required` is `none` when the source leaves the variable
`undefined` (the no-type fallback branch). -/
structure ClassifiedProp where
  name : String
  required : Option Bool
  defaultValue : JSVal
  message : String
deriving DecidableEq, Repr

/-- Truthiness of the (possibly undefined) `required` field, as used by
the filters `p => p.required` and `p => !p.required` (lines 161-162). -/
def optTruthy : Option Bool → Bool
  | some b => b
  | none => false

/-- Whether a character is matched by the regex metacharacter `.`
(anything but a line terminator). -/
def dotMatch (c : Char) : Bool :=
  !(c == '\n') && !(c == '\r') && !(c.val == 0x2028) && !(c.val == 0x2029)

/-- Whether a character list starts with a `.`-matchable character. -/
def headDotMatch : List Char → Bool
  | [] => false
  | d :: _ => dotMatch d

/-- `s.replace(re, "")` for a regex of the form `lit` followed by `.`:
remove the first occurrence of the literal `lit` followed by one
arbitrary (non-line-terminator) character.  Models
`.replace(/PropTypes./, "")` (line 132). -/
def replaceLitAny (lit : List Char) : List Char → List Char
  | [] => []
  | c :: rest =>
    if lit.isPrefixOf (c :: rest) && headDotMatch ((c :: rest).drop lit.length)
    then (c :: rest).drop (lit.length + 1)
    else c :: replaceLitAny lit rest

/-- `s.replace(re, "")` for a regex of the form `.` followed by `lit`:
remove the first occurrence of one arbitrary character followed by the
literal `lit`.  Models `.replace(/.isRequired/, "")` (line 133). -/
def replaceAnyLit (lit : List Char) : List Char → List Char
  | [] => []
  | c :: rest =>
    if dotMatch c && lit.isPrefixOf rest
    then rest.drop lit.length
    else c :: replaceAnyLit lit rest

/-- `re.test(s)` for a regex of the form `.` followed by `lit`.
Models `/.isRequired/.test(value.type.raw)` (line 134). -/
def testAnyLit (lit : List Char) : List Char → Bool
  | [] => false
  | c :: rest => (dotMatch c && lit.isPrefixOf rest) || testAnyLit lit rest

/-- The effective type name computed from a runtime-validator raw text:
strip the first `PropTypes.`-shaped match, then the first
`.isRequired`-shaped match (lines 131-133). -/
def stripRawType (raw : String) : String :=
  String.mk (replaceAnyLit "isRequired".data (replaceLitAny "PropTypes".data raw.data))

/-- Whether the raw text contains an `.isRequired`-shaped match
(line 134). -/
def rawHasIsRequired (raw : String) : Bool :=
  testAnyLit "isRequired".data raw.data

/-- The body of the per-prop loop of `getPropDefaults`
(lines 115-143): branch on a flow type, then on a non-empty
`type.raw`, else fall back to the sentinel `any` with a diagnostic;
finally run the classification lookup. -/
def classifyProp (name : String) (v : PropValue) : ClassifiedProp :=
  match v.flowType with
  | some ft =>
    let tname := if ft.name == "union" then ft.elements.headD "" else ft.name
    { name := name, required := v.required,
      defaultValue := classifyLookup tname, message := "" }
  | none =>
    match v.typeRaw with
    | some raw =>
      if raw == "" then
        { name := name, required := none,
          defaultValue := classifyLookup "any",
          message := "Could not deduce prop type" }
      else
        { name := name, required := some (rawHasIsRequired raw),
          defaultValue := classifyLookup (stripRawType raw), message := "" }
    | none =>
      { name := name, required := none,
        defaultValue := classifyLookup "any",
        message := "Could not deduce prop type" }

/-- `getPropDefaults` over the whole prop schema: `for (const prop in
data.component.props)` iterates the keys in insertion order (modelled
as an association list) and iterates zero times when `props` is
`undefined`. -/
def getPropDefaults (props : Option (List (String × PropValue))) : List ClassifiedProp :=
  (props.getD []).map (fun p => classifyProp p.1 p.2)

/-- `data.classifiedProps.filter(p => p.required)` (line 161). -/
def requiredOf (cls : List ClassifiedProp) : List ClassifiedProp :=
  cls.filter (fun p => optTruthy p.required)

/-- `data.classifiedProps.filter(p => !p.required)` (line 162). -/
def optionalOf (cls : List ClassifiedProp) : List ClassifiedProp :=
  cls.filter (fun p => !(optTruthy p.required))

example : classifyLookup "number" = JSVal.null := by decide
example : classifyLookup "boolean" = JSVal.bool true := by decide
example : stripRawType "PropTypes.string.isRequired" = "string" := by decide
example : rawHasIsRequired "PropTypes.string.isRequired" = true := by decide
example : rawHasIsRequired "PropTypes.string" = false := by decide

/-!
The safe-spy relative path.

`generateTestCasesContent` computes
`testDirectory.replace(/([^\x2f]*)/g, () => '.')` (line 158).  A global
replace with a regex that can match the empty string replaces every
maximal run of non-slash characters with one dot and additionally
inserts a dot at every position where the regex matches the empty
string (immediately before a slash that does not terminate a run, and
at the end of the string); the net effect is that every non-empty path
segment becomes `..` and every empty segment becomes `.`, with the
slashes kept.  `dotReplaceL` transcribes the exec/advance loop of the
JavaScript global replace; `afterRunL` is its state immediately after
a non-empty match.
-/

mutual

/-- One step of the global-replace loop of line 158, at a position
where the previous match (if any) was empty or ended here. -/
def dotReplaceL : List Char → List Char
  | [] => ['.']
  | c :: t =>
    if c = '/' then '.' :: '/' :: dotReplaceL t
    else '.' :: afterRunL t

/-- The global-replace loop just after a non-empty match: skip the
rest of the current non-slash run, then the empty match at the run
boundary contributes one more dot. -/
def afterRunL : List Char → List Char
  | [] => ['.']
  | c :: t =>
    if c = '/' then '.' :: '/' :: dotReplaceL t
    else afterRunL t

end

/-- `testDirectory.replace(/([^\x2f]*)/g, () => '.')` (line 158). -/
def dotReplace (s : String) : String :=
  String.mk (dotReplaceL s.data)

/-- Split a character list at slashes (keeping empty segments), the
reference notion of path segments used to state properties of
`dotReplace`. -/
def splitSlash : List Char → List (List Char)
  | [] => [[]]
  | c :: t =>
    if c = '/' then [] :: splitSlash t
    else
      match splitSlash t with
      | s :: rest => (c :: s) :: rest
      | [] => [[c]]

/-- Join segments, putting a slash before every segment (used for all
segments after the first). -/
def sepJoin : List (List Char) → List Char
  | [] => []
  | s :: rest => '/' :: (s ++ sepJoin rest)

/-- Join segments with slashes between them. -/
def joinSlash : List (List Char) → List Char
  | [] => []
  | s :: rest => s ++ sepJoin rest

/-- The per-segment effect of the line-158 replace: an empty segment
becomes one dot, a non-empty one becomes two. -/
def segDots (seg : List Char) : List Char :=
  if seg = [] then ['.'] else ['.', '.']

example : dotReplace "components/__tests__" = "../.." := by decide
example : dotReplace "/abs/__tests__" = "./../.." := by decide
example : dotReplace "" = "." := by decide
example : dotReplace "a//b" = ".././.." := by decide

/-!
The fixture-module emitter (`generateTestCasesContent`).

The source pushes lines onto `data.testCasesContent` in a fixed order;
the embedding builds the same list by concatenation.  Literal braces
and single quotes of the emitted JavaScript text are written with
hexadecimal escapes.
-/

/-- `data.wrapped ? '.WrappedComponent' : ''` (line 191). -/
def wrappedSuffix (w : Bool) : String :=
  if w then ".WrappedComponent" else ""

/-- One line of `requiredPropsFormatted` (lines 165-172): the trailing
comma is dropped exactly when `excl` is set and this is the last
required prop, and a prop with a non-empty diagnostic gets the literal
trailing comment `// message` (the source writes the string
`\x60 // message\x60` without interpolating `prop.message`). -/
def reqLine (excl : Bool) (total i : Nat) (p : ClassifiedProp) : String :=
  let punct := if excl && (i + 1 == total) then "" else ","
  let comment := if p.message == "" then "" else " // message"
  "    " ++ p.name ++ ": " ++ jsToString p.defaultValue ++ punct ++ comment

/-- The `forEach` of `requiredPropsFormatted`, carrying the element
index. -/
def formatRequired (excl : Bool) (total : Nat) : Nat → List ClassifiedProp → List String
  | _, [] => []
  | i, p :: rest => reqLine excl total i p :: formatRequired excl total (i + 1) rest

/-- `requiredPropsFormatted(excludeLastComma)` (lines 164-173) applied
to the required-prop list. -/
def requiredPropsFormatted (excl : Bool) (reqs : List ClassifiedProp) : List String :=
  formatRequired excl reqs.length 0 reqs

/-- `basePropsFormatted` (lines 175-189): an absent prop schema and an
empty required list each produce a one-line empty props object with an
explanatory comment; otherwise the required props are listed without a
comma on the last line. -/
def basePropsFormatted (props : Option (List (String × PropValue)))
    (reqs : List ClassifiedProp) : List String :=
  match props with
  | none => ["  props: \x7b\x7d // could not find prop type declarations"]
  | some _ =>
    if reqs.isEmpty then
      ["  props: \x7b\x7d // could not find required props"]
    else
      ["  props: \x7b"] ++ requiredPropsFormatted true reqs ++ ["  \x7d"]

/-- The `base` scenario block (lines 202-207), including the blank
line pushed after it. -/
def baseScenarioBlock (cn : String) (w : Bool)
    (props : Option (List (String × PropValue)))
    (reqs : List ClassifiedProp) : List String :=
  ["export const base = \x7b",
   "  description: " ++ sQuote ++ "base" ++ sQuote ++ ",",
   "  component: " ++ cn ++ wrappedSuffix w ++ ","]
  ++ basePropsFormatted props reqs
  ++ ["\x7d", ""]

/-- One optional-prop scenario block (lines 209-226), including the
blank line pushed after it.  Here the diagnostic comment does
interpolate the message (line 210). -/
def optionalScenarioBlock (cn : String) (w : Bool)
    (reqs : List ClassifiedProp) (p : ClassifiedProp) : List String :=
  let comment := if p.message == "" then "" else " // " ++ p.message
  ["export const " ++ p.name ++ " = \x7b",
   "  description: " ++ sQuote ++ p.name ++ " optional prop" ++ sQuote ++ ",",
   "  component: " ++ cn ++ wrappedSuffix w ++ ",",
   "  props: \x7b"]
  ++ requiredPropsFormatted false reqs
  ++ ["    " ++ p.name ++ ": " ++ jsToString p.defaultValue ++ comment,
      "  \x7d",
      "\x7d;",
      ""]

/-- The three import lines and the blank line of the fixture module
(lines 193-200). -/
def fixtureHeaderLines (td cn fn : String) : List String :=
  ["import Immutable from " ++ sQuote ++ "immutable" ++ sQuote ++ ";",
   "import safeSpy from " ++ sQuote ++ dotReplace td ++ "/test/safe_spy" ++ sQuote ++ ";",
   "import \x7b " ++ cn ++ " \x7d from " ++ sQuote ++ "../" ++ fn ++ sQuote,
   ""]

/-- The scenario blocks of the fixture module in emission order: the
`base` block, then one block per optional prop in encounter order. -/
def scenarioBlocksOf (cn : String) (w : Bool)
    (props : Option (List (String × PropValue)))
    (cls : List ClassifiedProp) : List (List String) :=
  baseScenarioBlock cn w props (requiredOf cls)
    :: (optionalOf cls).map (optionalScenarioBlock cn w (requiredOf cls))

/-- `generateTestCasesContent` (lines 153-230): the full line list of
the `<component>.test_cases.js` file, as a function of the test
directory, component name, source base name, wrapped flag, prop schema
and classified props. -/
def generateTestCasesContent (td cn fn : String) (w : Bool)
    (props : Option (List (String × PropValue)))
    (cls : List ClassifiedProp) : List String :=
  fixtureHeaderLines td cn fn ++ (scenarioBlocksOf cn w props cls).flatten

/-!
The test-module emitter (`generateTestContent`).
-/

/-- One `describe` block of the test module (lines 256-272), for the
test case at index `i` of `total`; every block but the last is
followed by a blank line. -/
def testCaseBlock (total i : Nat) (n : String) : List String :=
  ["  describe(testCases." ++ n ++ ".description, () => \x7b",
   "    beforeEach(() => \x7b",
   "      testCase = testCases." ++ n ++ ";",
   "      wrapper = shallow(React.createElement(testCase.component, testCase.props));",
   "    \x7d);",
   "",
   "    it(" ++ sQuote ++ "renders" ++ sQuote ++ ", () => \x7b",
   "      expect(toJson(wrapper)).toMatchSnapshot();",
   "    \x7d);",
   "  \x7d);"]
  ++ (if i + 1 == total then [] else [""])

/-- The `forEach` over test-case names, carrying the index. -/
def testCaseBlocksFrom (total : Nat) : Nat → List String → List String
  | _, [] => []
  | i, n :: rest => testCaseBlock total i n ++ testCaseBlocksFrom total (i + 1) rest

/-- `generateTestContent` (lines 235-278): the full line list of the
`<component>.test.js` file.  The test-case names are `base` followed
by the optional prop names in order (lines 238-241). -/
def generateTestContent (cn fn : String) (optProps : List ClassifiedProp) : List String :=
  let names := "base" :: optProps.map (fun p => p.name)
  ["import React from " ++ sQuote ++ "react" ++ sQuote ++ ";",
   "import \x7b shallow \x7d from " ++ sQuote ++ "enzyme" ++ sQuote ++ ";",
   "import toJson from " ++ sQuote ++ "enzyme-to-json" ++ sQuote ++ ";",
   "import * as testCases from " ++ sQuote ++ "./" ++ fn ++ ".test_cases" ++ sQuote ++ ";",
   "",
   "describe(" ++ sQuote ++ "<" ++ cn ++ ">" ++ sQuote ++ ", () => \x7b",
   "  let testCase;",
   "  let wrapper;",
   ""]
  ++ testCaseBlocksFrom names.length 0 names
  ++ ["\x7d);", ""]

/-- `Array.prototype.join('\n')` (lines 302 and 306). -/
def joinLines : List String → String
  | [] => ""
  | [s] => s
  | s :: rest => s ++ "\n" ++ joinLines rest

/-!
The pipeline around the emitters.

`getFileAndComponentName` resolves names, `getComponentInfo` parses
the component, then the classification and the two emitters run, and
`createTestFiles` writes both artifacts.  A stage failure rejects the
promise chain and the single `catch` at the top level (line 15) stops
the run, so no file is written for a rejected run.
-/

/-- A parsed component as far as the pipeline consumes it: its prop
schema (`undefined` when react-docgen found none), keys in insertion
order. -/
structure Component where
  props : Option (List (String × PropValue))
deriving DecidableEq, Repr

/-- The mutable `data` record threaded through the promise chain,
restricted to the fields the stages after the component resolver read
and write. -/
structure PipeData where
  componentName : String
  componentFilePathName : String
  testDirectory : String
  testCasesFile : String
  testFile : String
  wrapped : Bool := false
  component : Option Component := none
  classifiedProps : List ClassifiedProp := []
  optionalProps : List ClassifiedProp := []
  testCasesContent : List String := []
  testContent : List String := []
deriving DecidableEq, Repr

/-- The `getPropDefaults` stage (lines 98-148); the resolver has set
`component` before this stage runs. -/
def getPropDefaultsStage (d : PipeData) : PipeData :=
  { d with classifiedProps := getPropDefaults ((d.component.getD ⟨none⟩).props) }

/-- The `generateTestCasesContent` stage (lines 153-230): records the
optional-prop partition (line 162) and the fixture line list on the
data record. -/
def genTestCasesStage (d : PipeData) : PipeData :=
  { d with
    optionalProps := optionalOf d.classifiedProps,
    testCasesContent :=
      generateTestCasesContent d.testDirectory d.componentName
        d.componentFilePathName d.wrapped ((d.component.getD ⟨none⟩).props)
        d.classifiedProps }

/-- The `generateTestContent` stage (lines 235-278). -/
def genTestStage (d : PipeData) : PipeData :=
  { d with
    testContent :=
      generateTestContent d.componentName d.componentFilePathName d.optionalProps }

/-- The three pure stages between the component resolver and the
writer, in pipeline order (lines 9-11). -/
def stagesAfterResolve (d : PipeData) : PipeData :=
  genTestStage (genTestCasesStage (getPropDefaultsStage d))

/-- Propagation of a resolver outcome through the pure stages: a
rejected promise skips every subsequent `then` (line 15). -/
def runAfterResolve : Except String PipeData → Except String PipeData
  | Except.ok d => Except.ok (stagesAfterResolve d)
  | Except.error m => Except.error m

/-- The files `createTestFiles` writes (lines 298-311): both artifact
paths with their joined content on success, nothing on a rejected
run. -/
def writtenFiles : Except String PipeData → List (String × String)
  | Except.ok d =>
    [(d.testCasesFile, joinLines d.testCasesContent),
     (d.testFile, joinLines d.testContent)]
  | Except.error _ => []

/-- A settlement operation performed on a promise by its executor:
`resolve` with a value or `reject` with a message. -/
inductive Settle (α : Type) where
  | res (a : α)
  | rej (msg : String)
deriving DecidableEq, Repr

/-- The outcome of a promise given the sequence of settlement
operations its executor performs: only the first operation matters
(later `resolve`/`reject` calls are ignored), and no operation leaves
the promise pending. -/
def promiseOutcome {α : Type} : List (Settle α) → Option (Except String α)
  | [] => none
  | Settle.res a :: _ => some (Except.ok a)
  | Settle.rej m :: _ => some (Except.error m)

/-- The rejection message of the ambiguous-component branch
(lines 79-81). -/
def multiDefMsg : String :=
  "Found more than one component definitions, could not automatically generate tests."

/-- The settlement operations performed by `getComponentInfo` when the
direct parse has failed and the wrapped parse produced the list `res`
(lines 77-85): the code calls `reject` when `res.length > 1` but does
not return, so it always goes on to set `component` and `wrapped` and
call `resolve`. -/
def wrappedBranchEvents (res : List Component) (d : PipeData) : List (Settle PipeData) :=
  (if res.length > 1 then [Settle.rej multiDefMsg] else [])
  ++ [Settle.res { d with component := res.head?, wrapped := true }]

/-!
Observables used to state the claims.
-/

/-- Boolean string-prefix test on the underlying character lists. -/
def pfxBool : List Char → List Char → Bool
  | [], _ => true
  | _ :: _, [] => false
  | a :: as, b :: bs => a == b && pfxBool as bs

/-- Whether the string `l` starts with the string `p`. -/
def strStarts (p l : String) : Bool := pfxBool p.data l.data

/-- The scenario-header lines of an emitted fixture module: the lines
starting with `export const `. -/
def exportHeaderLinesOf (content : List String) : List String :=
  content.filter (fun l => strStarts "export const " l)

/-- The stem of a prop line in a props block: four spaces, the prop
name, a colon and the stringified classified value; the actual line
may add a comma and a comment. -/
def propLineStem (p : ClassifiedProp) : String :=
  "    " ++ p.name ++ ": " ++ jsToString p.defaultValue

/-- A sample resolved-path record (the end-to-end example of the
specification: input path `components/user_card.js`). -/
def sampleData : PipeData :=
  { componentName := "UserCard",
    componentFilePathName := "user_card",
    testDirectory := "components/__tests__",
    testCasesFile := "components/__tests__/user_card.test_cases.js",
    testFile := "components/__tests__/user_card.test.js" }

/-!
The claims.
-/

/-- C1: the claim says the classifier's table lookup assigns the
classified default `0` (not null) to a prop whose effective type name
is `number`.  The table does map `number` to `0`, but the lookup
`propTypes[defaultValue] || null` (line 142) discards the falsy mapped
value `0`, so the classified value of a `number` prop is `null`: the
table entry is dead and the classified value contradicts it. -/
theorem number_prop_classifies_to_null :
    propTypesTable.lookup "number" = some (JSVal.num 0) ∧
    classifyLookup "number" = JSVal.null ∧
    (classifyProp "count" ⟨some ⟨"number", []⟩, none, some true⟩).defaultValue
      = JSVal.null ∧
    (classifyProp "count" ⟨some ⟨"number", []⟩, none, some true⟩).defaultValue
      ≠ JSVal.num 0 := by
  decide

/-- C2: the claim says a required prop's diagnostic text is appended
as a trailing comment on its line in the base scenario.  The source
(line 168) appends the literal text ` // message` instead of
interpolating `prop.message`: for a required prop whose diagnostic is
`Could not deduce prop type`, the emitted line carries the comment
`// message` and not the diagnostic text.  (The comma placement the
claim states is as emitted; and through the full pipeline a required
prop never carries a diagnostic, since the only branch that sets a
diagnostic leaves `required` undefined.) -/
theorem required_line_comment_is_literal_message :
    requiredPropsFormatted true
        [⟨"value", some true, JSVal.null, "Could not deduce prop type"⟩]
      = ["    value: null // message"] ∧
    requiredPropsFormatted true
        [⟨"value", some true, JSVal.null, "Could not deduce prop type"⟩]
      ≠ ["    value: null // Could not deduce prop type"] := by
  decide

/-- C3: when the wrapped-definition search yields two or more
candidates, `getComponentInfo` rejects with the ambiguous-component
message; the `resolve` the code still executes afterwards (lines
82-84) is ignored because only a promise's first settlement counts,
and a rejected resolver outcome reaches the final `catch` with no
file written. -/
theorem multiple_definitions_reject_and_write_nothing
    (res : List Component) (d : PipeData) (h : 1 < res.length) :
    promiseOutcome (wrappedBranchEvents res d)
        = some (Except.error multiDefMsg) ∧
    writtenFiles (runAfterResolve (Except.error multiDefMsg)) = [] := by
  constructor
  · unfold wrappedBranchEvents
    rw [if_pos h]
    rfl
  · rfl

/-- Witness for C3 at a concrete two-candidate result. -/
theorem multiple_definitions_reject_and_write_nothing_witness :
    promiseOutcome (wrappedBranchEvents [⟨none⟩, ⟨none⟩] sampleData)
        = some (Except.error multiDefMsg) ∧
    writtenFiles (runAfterResolve (Except.error multiDefMsg)) = [] :=
  multiple_definitions_reject_and_write_nothing [⟨none⟩, ⟨none⟩] sampleData
    (by decide)

/-- C5: a prop declared with the runtime-validator text
`PropTypes.string.isRequired` classifies to required, effective type
name `string`, and the two-single-quote empty-string literal. -/
theorem proptypes_string_isrequired_classification :
    stripRawType "PropTypes.string.isRequired" = "string" ∧
    (classifyProp "title" ⟨none, some "PropTypes.string.isRequired", none⟩).required
      = some true ∧
    (classifyProp "title" ⟨none, some "PropTypes.string.isRequired", none⟩).defaultValue
      = JSVal.str "\x27\x27" := by
  decide

/-- C6: a prop with static (flow) type name `boolean` whose required
flag is not set classifies as optional (its `required` output is the
annotation's flag, which is falsy) with classified value `true`. -/
theorem boolean_unset_required_classification
    (nm : String) (els : List String) (tr : Option String) (r : Option Bool)
    (h : optTruthy r = false) :
    (classifyProp nm ⟨some ⟨"boolean", els⟩, tr, r⟩).required = r ∧
    optTruthy (classifyProp nm ⟨some ⟨"boolean", els⟩, tr, r⟩).required = false ∧
    (classifyProp nm ⟨some ⟨"boolean", els⟩, tr, r⟩).defaultValue
      = JSVal.bool true := by
  refine ⟨rfl, h, ?_⟩
  have hb : ("boolean" == "union") = false := by decide
  simp only [classifyProp, hb, Bool.false_eq_true, if_false]
  decide

/-- Witness for C6 at the end-to-end example's `active: boolean`
prop. -/
theorem boolean_unset_required_classification_witness :
    (classifyProp "active" ⟨some ⟨"boolean", []⟩, none, some false⟩).required
      = some false ∧
    optTruthy (classifyProp "active" ⟨some ⟨"boolean", []⟩, none, some false⟩).required
      = false ∧
    (classifyProp "active" ⟨some ⟨"boolean", []⟩, none, some false⟩).defaultValue
      = JSVal.bool true :=
  boolean_unset_required_classification "active" [] none (some false) (by decide)

/-- C7: when the extracted prop schema has zero declared properties
(react-docgen produced no `props` object, or an empty one), the base
scenario's props block is the single-line empty-props form with an
explanatory comment, and no optional-prop scenario block is emitted:
the fixture module is exactly the header plus the base block. -/
theorem zero_props_emit_base_only
    (td cn fn : String) (w : Bool)
    (props : Option (List (String × PropValue)))
    (h : props.getD [] = []) :
    ∃ c, generateTestCasesContent td cn fn w props (getPropDefaults props)
        = fixtureHeaderLines td cn fn ++
          ["export const base = \x7b",
           "  description: " ++ sQuote ++ "base" ++ sQuote ++ ",",
           "  component: " ++ cn ++ wrappedSuffix w ++ ",",
           "  props: \x7b\x7d // " ++ c,
           "\x7d", ""] ∧
        (c = "could not find prop type declarations" ∨
         c = "could not find required props") := by
  cases props with
  | none =>
    refine ⟨"could not find prop type declarations", ?_, Or.inl rfl⟩
    simp [generateTestCasesContent, scenarioBlocksOf, baseScenarioBlock,
      basePropsFormatted, getPropDefaults, requiredOf, optionalOf]
  | some l =>
    simp only [Option.getD_some] at h
    subst h
    refine ⟨"could not find required props", ?_, Or.inr rfl⟩
    simp [generateTestCasesContent, scenarioBlocksOf, baseScenarioBlock,
      basePropsFormatted, getPropDefaults, requiredOf, optionalOf]

/-- Witness for C7 at a schema-less component. -/
theorem zero_props_emit_base_only_witness :
    ∃ c, generateTestCasesContent "components/__tests__" "UserCard" "user_card"
          false none (getPropDefaults none)
        = fixtureHeaderLines "components/__tests__" "UserCard" "user_card" ++
          ["export const base = \x7b",
           "  description: " ++ sQuote ++ "base" ++ sQuote ++ ",",
           "  component: " ++ "UserCard" ++ wrappedSuffix false ++ ",",
           "  props: \x7b\x7d // " ++ c,
           "\x7d", ""] ∧
        (c = "could not find prop type declarations" ∨
         c = "could not find required props") :=
  zero_props_emit_base_only "components/__tests__" "UserCard" "user_card"
    false none (by decide)

/-- C9: the two emitted texts are functions of the parsed schema and
the path metadata alone: two runs of the pure stages on records that
agree on the component name, source base name, test directory,
wrapped flag and parsed component produce byte-identical fixture and
test module text. -/
theorem emitted_texts_deterministic (d1 d2 : PipeData)
    (h1 : d1.componentName = d2.componentName)
    (h2 : d1.componentFilePathName = d2.componentFilePathName)
    (h3 : d1.testDirectory = d2.testDirectory)
    (h4 : d1.wrapped = d2.wrapped)
    (h5 : d1.component = d2.component) :
    joinLines (stagesAfterResolve d1).testCasesContent
        = joinLines (stagesAfterResolve d2).testCasesContent ∧
    joinLines (stagesAfterResolve d1).testContent
        = joinLines (stagesAfterResolve d2).testContent := by
  simp only [stagesAfterResolve, genTestStage, genTestCasesStage,
    getPropDefaultsStage]
  rw [h1, h2, h3, h4, h5]
  exact ⟨rfl, rfl⟩

/-- Witness for C9: the identical record run twice. -/
theorem emitted_texts_deterministic_witness :
    joinLines (stagesAfterResolve sampleData).testCasesContent
        = joinLines (stagesAfterResolve sampleData).testCasesContent ∧
    joinLines (stagesAfterResolve sampleData).testContent
        = joinLines (stagesAfterResolve sampleData).testContent :=
  emitted_texts_deterministic sampleData sampleData rfl rfl rfl rfl rfl

/-- The base scenario block always ends with the pushed blank line. -/
theorem baseScenarioBlock_ends_blank (cn : String) (w : Bool)
    (props : Option (List (String × PropValue))) (reqs : List ClassifiedProp) :
    ∃ q, baseScenarioBlock cn w props reqs = q ++ [""] ∧ q ≠ [] := by
  refine ⟨["export const base = \x7b",
           "  description: " ++ sQuote ++ "base" ++ sQuote ++ ",",
           "  component: " ++ cn ++ wrappedSuffix w ++ ","]
          ++ basePropsFormatted props reqs ++ ["\x7d"], ?_, by simp⟩
  simp [baseScenarioBlock]

/-- Every optional-prop scenario block ends with the pushed blank
line. -/
theorem optionalScenarioBlock_ends_blank (cn : String) (w : Bool)
    (reqs : List ClassifiedProp) (p : ClassifiedProp) :
    ∃ q, optionalScenarioBlock cn w reqs p = q ++ [""] ∧ q ≠ [] := by
  refine ⟨["export const " ++ p.name ++ " = \x7b",
           "  description: " ++ sQuote ++ p.name ++ " optional prop" ++ sQuote ++ ",",
           "  component: " ++ cn ++ wrappedSuffix w ++ ",",
           "  props: \x7b"]
          ++ requiredPropsFormatted false reqs
          ++ ["    " ++ p.name ++ ": " ++ jsToString p.defaultValue
                ++ (if p.message == "" then "" else " // " ++ p.message),
              "  \x7d", "\x7d;"], ?_, by simp⟩
  simp [optionalScenarioBlock]

/-- A flattened list of blocks that each end with a blank line itself
ends with a blank line (or is empty). -/
theorem flatten_blocks_end_blank {α : Type}
    (f : α → List String) (hf : ∀ x, ∃ q, f x = q ++ [""] ∧ q ≠ []) :
    ∀ l : List α, l = [] ∨ ∃ q, (l.map f).flatten = q ++ [""] := by
  intro l
  induction l with
  | nil => exact Or.inl rfl
  | cons x t ih =>
    refine Or.inr ?_
    obtain ⟨qx, hqx, -⟩ := hf x
    rcases ih with h | ⟨q, hq⟩
    · subst h
      exact ⟨qx, by simp [hqx]⟩
    · refine ⟨qx ++ [""] ++ q, ?_⟩
      simp [hqx, hq]

/-- The fixture line list always ends with a blank line preceded by
other lines. -/
theorem generateTestCasesContent_ends_blank (td cn fn : String) (w : Bool)
    (props : Option (List (String × PropValue))) (cls : List ClassifiedProp) :
    ∃ q, generateTestCasesContent td cn fn w props cls = q ++ [""] ∧ q ≠ [] := by
  obtain ⟨qb, hqb, -⟩ := baseScenarioBlock_ends_blank cn w props (requiredOf cls)
  rcases flatten_blocks_end_blank (optionalScenarioBlock cn w (requiredOf cls))
      (optionalScenarioBlock_ends_blank cn w (requiredOf cls)) (optionalOf cls) with
    h | ⟨q, hq⟩
  · refine ⟨fixtureHeaderLines td cn fn ++ qb, ?_, by simp [fixtureHeaderLines]⟩
    simp [generateTestCasesContent, scenarioBlocksOf, h, hqb]
  · refine ⟨fixtureHeaderLines td cn fn
        ++ baseScenarioBlock cn w props (requiredOf cls) ++ q, ?_,
      by simp [fixtureHeaderLines]⟩
    simp [generateTestCasesContent, scenarioBlocksOf, hq]

/-- The test-module line list always ends with a blank line preceded
by other lines. -/
theorem generateTestContent_ends_blank (cn fn : String)
    (optProps : List ClassifiedProp) :
    ∃ q, generateTestContent cn fn optProps = q ++ [""] ∧ q ≠ [] := by
  refine ⟨["import React from " ++ sQuote ++ "react" ++ sQuote ++ ";",
   "import \x7b shallow \x7d from " ++ sQuote ++ "enzyme" ++ sQuote ++ ";",
   "import toJson from " ++ sQuote ++ "enzyme-to-json" ++ sQuote ++ ";",
   "import * as testCases from " ++ sQuote ++ "./" ++ fn ++ ".test_cases" ++ sQuote ++ ";",
   "",
   "describe(" ++ sQuote ++ "<" ++ cn ++ ">" ++ sQuote ++ ", () => \x7b",
   "  let testCase;",
   "  let wrapper;",
   ""]
  ++ testCaseBlocksFrom ("base" :: optProps.map (fun p => p.name)).length 0
      ("base" :: optProps.map (fun p => p.name))
  ++ ["\x7d);"], ?_, by simp⟩
  simp [generateTestContent]

/-- `join('\n')` of a line list ending in an empty line produces a
string whose last character is the newline. -/
theorem joinLines_trailing_newline :
    ∀ q : List String, q ≠ [] →
      (joinLines (q ++ [""])).data.getLast? = some '\n' := by
  intro q
  induction q with
  | nil => intro h; exact absurd rfl h
  | cons x t ih =>
    intro _
    cases t with
    | nil =>
      show ((x ++ "\n") ++ joinLines [""]).data.getLast? = some '\n'
      rw [show joinLines [""] = "" from rfl]
      rw [String.data_append, String.data_append]
      rw [show ("" : String).data = [] from rfl]
      rw [show ("\n" : String).data = ['\n'] from rfl]
      simp
    | cons y s =>
      show (x ++ "\n" ++ joinLines ((y :: s) ++ [""])).data.getLast? = some '\n'
      have h2 := ih (by simp)
      rw [String.data_append]
      rw [List.getLast?_append_of_ne_nil]
      · exact h2
      · intro hnil
        rw [hnil] at h2
        simp at h2

/-- C10: for every run, both emitted line sequences end with the empty
line, so each written file's joined content ends with a newline
character. -/
theorem emitted_texts_end_with_newline (d : PipeData) :
    (stagesAfterResolve d).testCasesContent.getLast? = some "" ∧
    (stagesAfterResolve d).testContent.getLast? = some "" ∧
    (joinLines (stagesAfterResolve d).testCasesContent).data.getLast? = some '\n' ∧
    (joinLines (stagesAfterResolve d).testContent).data.getLast? = some '\n' := by
  obtain ⟨q1, hq1, hn1⟩ := generateTestCasesContent_ends_blank d.testDirectory
    d.componentName d.componentFilePathName d.wrapped
    ((d.component.getD ⟨none⟩).props) (getPropDefaults ((d.component.getD ⟨none⟩).props))
  obtain ⟨q2, hq2, hn2⟩ := generateTestContent_ends_blank d.componentName
    d.componentFilePathName (optionalOf (getPropDefaults ((d.component.getD ⟨none⟩).props)))
  have e1 : (stagesAfterResolve d).testCasesContent = q1 ++ [""] := by
    simp only [stagesAfterResolve, genTestStage, genTestCasesStage,
      getPropDefaultsStage]
    exact hq1
  have e2 : (stagesAfterResolve d).testContent = q2 ++ [""] := by
    simp only [stagesAfterResolve, genTestStage, genTestCasesStage,
      getPropDefaultsStage]
    exact hq2
  refine ⟨?_, ?_, ?_, ?_⟩
  · rw [e1, List.getLast?_append_of_ne_nil _ (by simp)]; rfl
  · rw [e2, List.getLast?_append_of_ne_nil _ (by simp)]; rfl
  · rw [e1]; exact joinLines_trailing_newline q1 hn1
  · rw [e2]; exact joinLines_trailing_newline q2 hn2

/-- The slash-separated segment list is never empty. -/
theorem splitSlash_ne_nil : ∀ l : List Char, splitSlash l ≠ [] := by
  intro l
  cases l with
  | nil => simp [splitSlash]
  | cons c t =>
    by_cases hc : c = '/'
    · simp [splitSlash, hc]
    · cases h : splitSlash t with
      | nil => simp [splitSlash, hc, h]
      | cons s rest => simp [splitSlash, hc, h]

/-- Putting a slash before every segment is the same as a leading
slash followed by slash-separated joining, for a non-empty segment
list. -/
theorem sepJoin_eq_cons (m : List (List Char)) (hm : m ≠ []) :
    sepJoin m = '/' :: joinSlash m := by
  cases m with
  | nil => exact absurd rfl hm
  | cons s rest => rfl

/-- The global replace of line 158 maps every slash-separated segment
of the input to one dot (empty segment) or two dots (non-empty
segment), keeping the slashes: simultaneous characterization of
`dotReplaceL` and its after-a-run state. -/
theorem dotReplaceL_spec : ∀ l : List Char,
    dotReplaceL l = joinSlash ((splitSlash l).map segDots) ∧
    afterRunL l = '.' :: sepJoin (((splitSlash l).tail).map segDots) := by
  intro l
  induction l with
  | nil => exact ⟨rfl, rfl⟩
  | cons c t ih =>
    obtain ⟨ihP, ihQ⟩ := ih
    have hmapne : (splitSlash t).map segDots ≠ [] := by
      intro h
      exact splitSlash_ne_nil t (List.map_eq_nil_iff.mp h)
    by_cases hc : c = '/'
    · subst hc
      constructor
      · show '.' :: '/' :: dotReplaceL t = _
        rw [show splitSlash ('/' :: t) = [] :: splitSlash t from by
          simp [splitSlash]]
        rw [List.map_cons]
        show '.' :: '/' :: dotReplaceL t
            = segDots [] ++ sepJoin ((splitSlash t).map segDots)
        rw [sepJoin_eq_cons _ hmapne, ihP]
        rfl
      · show '.' :: '/' :: dotReplaceL t = _
        rw [show splitSlash ('/' :: t) = [] :: splitSlash t from by
          simp [splitSlash]]
        show '.' :: '/' :: dotReplaceL t
            = '.' :: sepJoin ((splitSlash t).map segDots)
        rw [sepJoin_eq_cons _ hmapne, ihP]
    · obtain ⟨s, rest, hsplit⟩ :
          ∃ s rest, splitSlash t = s :: rest := by
        cases h : splitSlash t with
        | nil => exact absurd h (splitSlash_ne_nil t)
        | cons s rest => exact ⟨s, rest, rfl⟩
      have hsc : splitSlash (c :: t) = (c :: s) :: rest := by
        simp [splitSlash, hc, hsplit]
      constructor
      · show (if c = '/' then '.' :: '/' :: dotReplaceL t else '.' :: afterRunL t)
            = _
        rw [if_neg hc, hsc, List.map_cons]
        show '.' :: afterRunL t
            = segDots (c :: s) ++ sepJoin (rest.map segDots)
        rw [show segDots (c :: s) = ['.', '.'] from by simp [segDots]]
        rw [ihQ, hsplit]
        rfl
      · show (if c = '/' then '.' :: '/' :: dotReplaceL t else afterRunL t) = _
        rw [if_neg hc, hsc, ihQ, hsplit]
        rfl

/-- Unfolding `splitSlash` at a non-slash head. -/
theorem splitSlash_cons_ne (c : Char) (t : List Char) (hc : c ≠ '/')
    (s : List Char) (rest : List (List Char)) (h : splitSlash t = s :: rest) :
    splitSlash (c :: t) = (c :: s) :: rest := by
  simp [splitSlash, hc, h]

/-- Splitting after prepending slash-free characters extends the first
segment. -/
theorem splitSlash_append_noslash :
    ∀ (s l : List Char), ('/' ∉ s) →
      splitSlash (s ++ l)
        = (s ++ (splitSlash l).headD []) :: (splitSlash l).tail := by
  intro s
  induction s with
  | nil =>
    intro l _
    cases h : splitSlash l with
    | nil => exact absurd h (splitSlash_ne_nil l)
    | cons a r => simp [h]
  | cons c s' ih =>
    intro l hs
    have hc : c ≠ '/' := by
      intro h
      exact hs (by rw [h]; exact List.mem_cons_self _ _)
    have hsr := ih l (fun h => hs (List.mem_cons_of_mem _ h))
    show splitSlash (c :: (s' ++ l)) = _
    rw [splitSlash_cons_ne c _ hc _ _ hsr]
    rfl

/-- `splitSlash` is a left inverse of `joinSlash` on non-empty lists
of slash-free segments. -/
theorem splitSlash_joinSlash :
    ∀ m : List (List Char), m ≠ [] → (∀ seg ∈ m, '/' ∉ seg) →
      splitSlash (joinSlash m) = m := by
  intro m
  induction m with
  | nil => intro h; exact absurd rfl h
  | cons s rest ih =>
    intro _ hsl
    have hs : '/' ∉ s := hsl s (List.mem_cons_self _ _)
    cases rest with
    | nil =>
      show splitSlash (s ++ sepJoin []) = [s]
      rw [show sepJoin ([] : List (List Char)) = [] from rfl]
      rw [splitSlash_append_noslash s [] hs]
      simp [splitSlash]
    | cons s2 rest2 =>
      have ihr := ih (by simp) (fun seg h => hsl seg (List.mem_cons_of_mem _ h))
      show splitSlash (s ++ sepJoin (s2 :: rest2)) = s :: s2 :: rest2
      rw [sepJoin_eq_cons _ (by simp)]
      rw [splitSlash_append_noslash s ('/' :: joinSlash (s2 :: rest2)) hs]
      rw [show splitSlash ('/' :: joinSlash (s2 :: rest2))
            = [] :: splitSlash (joinSlash (s2 :: rest2)) from by simp [splitSlash]]
      rw [ihr]
      simp

/-- C8: the safe-spy import line of the fixture module uses the
relative path computed by the line-158 replace, and that replace turns
every slash-separated segment of the test directory into `..` (empty
segments, as produced by a leading, trailing or doubled slash, become
`.`); in particular the number of `..` segments equals the number of
non-empty path segments — the depth — of the test directory. -/
theorem safe_spy_path_depth (td cn fn : String) (w : Bool)
    (props : Option (List (String × PropValue))) (cls : List ClassifiedProp) :
    (generateTestCasesContent td cn fn w props cls).get? 1
        = some ("import safeSpy from " ++ sQuote ++ dotReplace td
            ++ "/test/safe_spy" ++ sQuote ++ ";") ∧
    splitSlash (dotReplace td).data = (splitSlash td.data).map segDots ∧
    (splitSlash (dotReplace td).data).count ['.', '.']
        = (splitSlash td.data).countP (fun seg => !seg.isEmpty) := by
  have hdata : (dotReplace td).data = dotReplaceL td.data := rfl
  have hspec := (dotReplaceL_spec td.data).1
  have hne : (splitSlash td.data).map segDots ≠ [] := by
    intro h
    exact splitSlash_ne_nil td.data (List.map_eq_nil_iff.mp h)
  have hnoslash : ∀ seg ∈ (splitSlash td.data).map segDots, '/' ∉ seg := by
    intro seg hseg
    obtain ⟨x, -, hx⟩ := List.mem_map.mp hseg
    subst hx
    by_cases hx0 : x = []
    · simp [segDots, hx0]
    · simp [segDots, hx0]
  have hsplit : splitSlash (dotReplace td).data = (splitSlash td.data).map segDots := by
    rw [hdata, hspec]
    exact splitSlash_joinSlash _ hne hnoslash
  refine ⟨rfl, hsplit, ?_⟩
  rw [hsplit]
  rw [List.count, List.countP_map]
  refine List.countP_congr ?_
  intro x _
  by_cases hx0 : x = []
  · subst hx0; decide
  · cases x with
    | nil => exact absurd rfl hx0
    | cons a y => simp [segDots]

/-- Every list is a prefix of itself extended by anything. -/
theorem pfxBool_append_self : ∀ (a b : List Char), pfxBool a (a ++ b) = true := by
  intro a b
  induction a with
  | nil => rfl
  | cons c as ih => simp [pfxBool, ih]

/-- `strStarts` holds when the data of `l` literally extends the data
of `p`. -/
theorem strStarts_of_data (p l : String) (t : List Char)
    (h : l.data = p.data ++ t) : strStarts p l = true := by
  unfold strStarts
  rw [h]
  exact pfxBool_append_self _ _

/-- `strStarts` fails when the first characters differ. -/
theorem strStarts_false_of_heads (p l : String) (c : Char)
    (hp : p.data.head? = some c) (h : l.data.head? ≠ some c) :
    strStarts p l = false := by
  unfold strStarts
  cases hpd : p.data with
  | nil => rw [hpd] at hp; cases hp
  | cons a as =>
    cases hld : l.data with
    | nil => rfl
    | cons d ds =>
      rw [hpd] at hp
      rw [hld] at h
      have hac : a = c := by simpa using hp
      have hdc : d ≠ c := fun hh => h (by simp [hh])
      have hbeq : (a == d) = false := by
        rw [beq_eq_false_iff_ne]
        intro hh
        exact hdc (hh ▸ hac)
      simp [pfxBool, hbeq]

/-- A line whose first character is not `e` is not a scenario-header
line. -/
theorem notExportHead (l : String) (h : l.data.head? ≠ some 'e') :
    strStarts "export const " l = false :=
  strStarts_false_of_heads _ _ 'e' (by decide) h

/-- No line of `requiredPropsFormatted` is a scenario-header line
(they all start with four spaces). -/
theorem filter_formatRequired (excl : Bool) (total : Nat) :
    ∀ (i : Nat) (props : List ClassifiedProp),
      (formatRequired excl total i props).filter
          (fun l => strStarts "export const " l) = [] := by
  intro i props
  induction props generalizing i with
  | nil => rfl
  | cons p rest ih =>
    have hline : strStarts "export const " (reqLine excl total i p) = false := by
      apply notExportHead
      simp only [reqLine, String.data_append, List.append_assoc]
      rw [List.head?_append_of_ne_nil]
      all_goals decide
    show (reqLine excl total i p :: formatRequired excl total (i + 1) rest).filter _ = []
    simp [List.filter_cons, hline, ih]

/-- No line of `basePropsFormatted` is a scenario-header line. -/
theorem filter_basePropsFormatted (props : Option (List (String × PropValue)))
    (reqs : List ClassifiedProp) :
    (basePropsFormatted props reqs).filter
        (fun l => strStarts "export const " l) = [] := by
  cases props with
  | none => simp [basePropsFormatted, List.filter_cons]; decide
  | some l =>
    by_cases hr : reqs.isEmpty
    · simp [basePropsFormatted, hr, List.filter_cons]; decide
    · have h1 : strStarts "export const " "  props: \x7b" = false := by decide
      have h2 : strStarts "export const " "  \x7d" = false := by decide
      simp [basePropsFormatted, hr, List.filter_append, List.filter_cons,
        h1, h2, requiredPropsFormatted, filter_formatRequired]

/-- The only scenario-header line of the base block is its first
line. -/
theorem filter_baseScenarioBlock (cn : String) (w : Bool)
    (props : Option (List (String × PropValue))) (reqs : List ClassifiedProp) :
    (baseScenarioBlock cn w props reqs).filter
        (fun l => strStarts "export const " l)
      = ["export const base = \x7b"] := by
  have h1 : strStarts "export const " "export const base = \x7b" = true := by
    decide
  have h2 : strStarts "export const "
      ("  description: " ++ sQuote ++ "base" ++ sQuote ++ ",") = false := by
    decide
  have h3 : strStarts "export const "
      ("  component: " ++ cn ++ wrappedSuffix w ++ ",") = false := by
    apply notExportHead
    simp only [String.data_append, List.append_assoc]
    rw [List.head?_append_of_ne_nil]
    all_goals decide
  have h4 : strStarts "export const " "\x7d" = false := by decide
  have h5 : strStarts "export const " "" = false := by decide
  simp [baseScenarioBlock, List.filter_append, List.filter_cons,
    h1, h2, h3, h4, h5, filter_basePropsFormatted]

/-- The only scenario-header line of an optional-prop block is its
first line. -/
theorem filter_optionalScenarioBlock (cn : String) (w : Bool)
    (reqs : List ClassifiedProp) (p : ClassifiedProp) :
    (optionalScenarioBlock cn w reqs p).filter
        (fun l => strStarts "export const " l)
      = ["export const " ++ p.name ++ " = \x7b"] := by
  have h1 : strStarts "export const "
      ("export const " ++ p.name ++ " = \x7b") = true := by
    apply strStarts_of_data _ _ (p.name.data ++ " = \x7b".data)
    simp [String.data_append, List.append_assoc]
  have h2 : strStarts "export const "
      ("  description: " ++ sQuote ++ p.name ++ " optional prop" ++ sQuote ++ ",")
      = false := by
    apply notExportHead
    simp only [String.data_append, List.append_assoc]
    rw [List.head?_append_of_ne_nil]
    all_goals decide
  have h3 : strStarts "export const "
      ("  component: " ++ cn ++ wrappedSuffix w ++ ",") = false := by
    apply notExportHead
    simp only [String.data_append, List.append_assoc]
    rw [List.head?_append_of_ne_nil]
    all_goals decide
  have h4 : strStarts "export const " "  props: \x7b" = false := by decide
  have h5 : ∀ t : String, strStarts "export const "
      ("    " ++ p.name ++ ": " ++ jsToString p.defaultValue ++ t) = false := by
    intro t
    apply notExportHead
    simp only [String.data_append, List.append_assoc]
    rw [List.head?_append_of_ne_nil]
    all_goals decide
  have h6 : strStarts "export const " "  \x7d" = false := by decide
  have h7 : strStarts "export const " "\x7d;" = false := by decide
  have h8 : strStarts "export const " "" = false := by decide
  simp [optionalScenarioBlock, List.filter_append, List.filter_cons,
    h1, h2, h3, h4, h5, h6, h7, h8, requiredPropsFormatted,
    filter_formatRequired]

/-- Scenario-header lines of the flattened optional blocks, in
order. -/
theorem filter_flatten_optional (cn : String) (w : Bool)
    (reqs : List ClassifiedProp) :
    ∀ l : List ClassifiedProp,
      ((l.map (optionalScenarioBlock cn w reqs)).flatten).filter
          (fun l => strStarts "export const " l)
        = l.map (fun p => "export const " ++ p.name ++ " = \x7b") := by
  intro l
  induction l with
  | nil => rfl
  | cons p rest ih =>
    simp [List.filter_append, filter_optionalScenarioBlock, ih]

/-- No header-import line of the fixture module is a scenario-header
line. -/
theorem filter_fixtureHeaderLines (td cn fn : String) :
    (fixtureHeaderLines td cn fn).filter
        (fun l => strStarts "export const " l) = [] := by
  have h1 : strStarts "export const "
      ("import Immutable from " ++ sQuote ++ "immutable" ++ sQuote ++ ";")
      = false := by decide
  have h2 : strStarts "export const "
      ("import safeSpy from " ++ sQuote ++ dotReplace td ++ "/test/safe_spy"
        ++ sQuote ++ ";") = false := by
    apply notExportHead
    simp only [String.data_append, List.append_assoc]
    rw [List.head?_append_of_ne_nil]
    all_goals decide
  have h3 : strStarts "export const "
      ("import \x7b " ++ cn ++ " \x7d from " ++ sQuote ++ "../" ++ fn ++ sQuote)
      = false := by
    apply notExportHead
    simp only [String.data_append, List.append_assoc]
    rw [List.head?_append_of_ne_nil]
    all_goals decide
  have h4 : strStarts "export const " "" = false := by decide
  simp [fixtureHeaderLines, List.filter_cons, h1, h2, h3, h4]

/-- Every required prop contributes a line starting with its
name-and-value stem to `formatRequired`. -/
theorem formatRequired_mem (excl : Bool) (total : Nat) :
    ∀ (i : Nat) (props : List ClassifiedProp) (p : ClassifiedProp), p ∈ props →
      ∃ line ∈ formatRequired excl total i props,
        strStarts (propLineStem p) line = true := by
  intro i props
  induction props generalizing i with
  | nil => intro p h; cases h
  | cons q rest ih =>
    intro p hp
    rcases List.mem_cons.mp hp with h | h
    · subst h
      refine ⟨reqLine excl total i p, List.mem_cons_self _ _, ?_⟩
      apply strStarts_of_data _ _
        (((if excl && (i + 1 == total) then "" else ",")
          ++ (if p.message == "" then "" else " // message")).data)
      simp [reqLine, propLineStem, String.data_append, List.append_assoc]
    · obtain ⟨line, hm, hs⟩ := ih (i + 1) p h
      exact ⟨line, List.mem_cons_of_mem _ hm, hs⟩

/-- C4: the fixture module has exactly `1 + M` scenario-header lines —
the `base` header followed by one header per optional prop in
encounter order — and every required prop's `name: value` line occurs
in the props block of every scenario (base and each optional
scenario). -/
theorem fixture_scenario_count_and_required_lines
    (td cn fn : String) (w : Bool)
    (props : Option (List (String × PropValue)))
    (cls : List ClassifiedProp) (hcls : cls = getPropDefaults props) :
    exportHeaderLinesOf (generateTestCasesContent td cn fn w props cls)
      = "export const base = \x7b"
          :: (optionalOf cls).map (fun p => "export const " ++ p.name ++ " = \x7b") ∧
    (exportHeaderLinesOf (generateTestCasesContent td cn fn w props cls)).length
      = 1 + (optionalOf cls).length ∧
    ∀ p ∈ requiredOf cls,
      ∀ blk ∈ scenarioBlocksOf cn w props cls,
        ∃ line ∈ blk, strStarts (propLineStem p) line = true := by
  have hfilter : exportHeaderLinesOf (generateTestCasesContent td cn fn w props cls)
      = "export const base = \x7b"
          :: (optionalOf cls).map (fun p => "export const " ++ p.name ++ " = \x7b") := by
    simp only [exportHeaderLinesOf, generateTestCasesContent, scenarioBlocksOf]
    rw [List.filter_append, filter_fixtureHeaderLines]
    rw [show (baseScenarioBlock cn w props (requiredOf cls)
          :: (optionalOf cls).map (optionalScenarioBlock cn w (requiredOf cls))).flatten
        = baseScenarioBlock cn w props (requiredOf cls)
          ++ ((optionalOf cls).map (optionalScenarioBlock cn w (requiredOf cls))).flatten
      from rfl]
    rw [List.filter_append, filter_baseScenarioBlock, filter_flatten_optional]
    rfl
  refine ⟨hfilter, by rw [hfilter]; simp [Nat.add_comm], ?_⟩
  intro p hp blk hblk
  have hreqs_ne : requiredOf cls ≠ [] := List.ne_nil_of_mem hp
  have hisEmpty : (requiredOf cls).isEmpty = false := by
    cases hq : requiredOf cls with
    | nil => exact absurd hq hreqs_ne
    | cons a t => rfl
  rcases List.mem_cons.mp hblk with hb | hb
  · subst hb
    obtain ⟨l, hl⟩ : ∃ l, props = some l := by
      cases props with
      | none =>
        rw [show getPropDefaults none = [] from rfl] at hcls
        rw [hcls] at hreqs_ne
        exact absurd rfl hreqs_ne
      | some l => exact ⟨l, rfl⟩
    obtain ⟨line, hline, hstem⟩ :=
      formatRequired_mem true (requiredOf cls).length 0 (requiredOf cls) p hp
    refine ⟨line, ?_, hstem⟩
    have hbp : line ∈ basePropsFormatted props (requiredOf cls) := by
      rw [hl]
      simp only [basePropsFormatted, hisEmpty, Bool.false_eq_true, if_false,
        requiredPropsFormatted]
      simp [List.mem_append]
      tauto
    simp [baseScenarioBlock, List.mem_append]
    tauto
  · obtain ⟨q, hq, hbq⟩ := List.mem_map.mp hb
    obtain ⟨line, hline, hstem⟩ :=
      formatRequired_mem false (requiredOf cls).length 0 (requiredOf cls) p hp
    refine ⟨line, ?_, hstem⟩
    rw [← hbq]
    simp [optionalScenarioBlock, List.mem_append, requiredPropsFormatted]
    tauto

/-- The prop schema of the specification's end-to-end example: a
required runtime-validated string `name` and an optional flow-typed
boolean `active`. -/
def exampleSchema : List (String × PropValue) :=
  [("name", ⟨none, some "PropTypes.string.isRequired", none⟩),
   ("active", ⟨some ⟨"boolean", []⟩, none, some false⟩)]

/-- Witness for C4 at the end-to-end example: two scenarios, and the
required `name` line occurs in the base scenario block. -/
theorem fixture_scenario_count_and_required_lines_witness :
    (exportHeaderLinesOf (generateTestCasesContent "components/__tests__"
        "UserCard" "user_card" false (some exampleSchema)
        (getPropDefaults (some exampleSchema)))).length
      = 1 + (optionalOf (getPropDefaults (some exampleSchema))).length ∧
    ∃ line ∈ baseScenarioBlock "UserCard" false (some exampleSchema)
        (requiredOf (getPropDefaults (some exampleSchema))),
      strStarts (propLineStem (classifyProp "name"
        ⟨none, some "PropTypes.string.isRequired", none⟩)) line = true :=
  ⟨(fixture_scenario_count_and_required_lines "components/__tests__" "UserCard"
      "user_card" false (some exampleSchema)
      (getPropDefaults (some exampleSchema)) rfl).2.1,
   (fixture_scenario_count_and_required_lines "components/__tests__" "UserCard"
      "user_card" false (some exampleSchema)
      (getPropDefaults (some exampleSchema)) rfl).2.2
     (classifyProp "name" ⟨none, some "PropTypes.string.isRequired", none⟩)
     (by decide)
     (baseScenarioBlock "UserCard" false (some exampleSchema)
       (requiredOf (getPropDefaults (some exampleSchema))))
     (List.mem_cons_self _ _)⟩
